import Mathlib

/-!
Verification of the TidyFlow multi-terminal smoke client
(scripts/term-multi-smoke.py): a shallow embedding of the frame
demultiplexing and deadline-bounded waiting engine of class
TerminalTester, together with theorems about its behaviour.

Bytes are modelled as natural numbers below 256, text (Python str) as
lists of Unicode code points, and wall-clock time as integers (one unit
is one millisecond; the script's 10 s receive budget is 10000 units).
The incoming frame stream is modelled as a list of frames tagged with
their arrival times.
-/

/-! ### Base64 payload codec

The script carries binary payloads as base64 text: sending encodes with
base64.b64encode (term-multi-smoke.py line 117), receiving decodes with
base64.b64decode followed by a UTF-8 decode with errors replaced
(line 65).
-/

/-- The base64 alphabet: maps a sextet (0..63) to its ASCII code. -/
def sextetToChar (s : Nat) : Nat :=
  if s < 26 then 65 + s
  else if s < 52 then 97 + (s - 26)
  else if s < 62 then 48 + (s - 52)
  else if s = 62 then 43
  else 47

/-- Inverse alphabet lookup: ASCII code back to a sextet; characters
outside the alphabet (including the padding character 61) map to none. -/
def charToSextet (c : Nat) : Option Nat :=
  if 65 ≤ c ∧ c ≤ 90 then some (c - 65)
  else if 97 ≤ c ∧ c ≤ 122 then some (26 + (c - 97))
  else if 48 ≤ c ∧ c ≤ 57 then some (52 + (c - 48))
  else if c = 43 then some 62
  else if c = 47 then some 63
  else none

/-- base64.b64encode: bytes to base64 text (ASCII codes), three input
bytes per four output characters, with padding (ASCII 61) for shorter
final groups. -/
def b64encode : List Nat → List Nat
  | [] => []
  | [b0] => [sextetToChar (b0 / 4), sextetToChar (b0 % 4 * 16), 61, 61]
  | [b0, b1] => [sextetToChar (b0 / 4), sextetToChar (b0 % 4 * 16 + b1 / 16),
                 sextetToChar (b1 % 16 * 4), 61]
  | b0 :: b1 :: b2 :: rest =>
      sextetToChar (b0 / 4) :: sextetToChar (b0 % 4 * 16 + b1 / 16) ::
      sextetToChar (b1 % 16 * 4 + b2 / 64) :: sextetToChar (b2 % 64) ::
      b64encode rest

/-- Reassemble bytes from a stream of sextets: four sextets form three
bytes; a final group of three (resp. two) sextets forms two bytes
(resp. one), matching the padding rules of b64encode. -/
def sextetsToBytes : List Nat → List Nat
  | s0 :: s1 :: s2 :: s3 :: rest =>
      (s0 * 4 + s1 / 16) :: (s1 % 16 * 16 + s2 / 4) :: (s2 % 4 * 64 + s3) ::
      sextetsToBytes rest
  | [s0, s1, s2] => [s0 * 4 + s1 / 16, s1 % 16 * 16 + s2 / 4]
  | [s0, s1] => [s0 * 4 + s1 / 16]
  | [_] => []
  | [] => []

/-- base64.b64decode: base64 text back to bytes. Padding and any
character outside the alphabet are skipped by the inverse lookup. -/
def b64decode (s : List Nat) : List Nat :=
  sextetsToBytes (s.filterMap charToSextet)

/-! ### UTF-8 decoding with replacement

The receive path turns the decoded bytes into text with
bytes.decode with utf-8 and errors replace (term-multi-smoke.py
line 65): well-formed UTF-8 sequences become their code points and each
maximal ill-formed subpart becomes one replacement character U+FFFD
(65533). The decoder is written with an explicit fuel argument (one
unit per input byte suffices) so that it is structurally recursive.
-/

/-- Range check for the second byte of a three-byte UTF-8 sequence; the
admissible range depends on the leading byte (overlong and surrogate
encodings are ill-formed). -/
def cont1ok (b0 b1 : Nat) : Bool :=
  if b0 = 224 then decide (160 ≤ b1 ∧ b1 ≤ 191)
  else if b0 = 237 then decide (128 ≤ b1 ∧ b1 ≤ 159)
  else decide (128 ≤ b1 ∧ b1 ≤ 191)

/-- Range check for the second byte of a four-byte UTF-8 sequence; the
admissible range depends on the leading byte (overlong and
beyond-U+10FFFF encodings are ill-formed). -/
def cont1ok4 (b0 b1 : Nat) : Bool :=
  if b0 = 240 then decide (144 ≤ b1 ∧ b1 ≤ 191)
  else if b0 = 244 then decide (128 ≤ b1 ∧ b1 ≤ 143)
  else decide (128 ≤ b1 ∧ b1 ≤ 191)

/-- Fuel-indexed UTF-8 decoder with replacement; consumes at least one
byte per step, so fuel equal to the input length is enough. -/
def utf8Go : Nat → List Nat → List Nat
  | 0, _ => []
  | _ + 1, [] => []
  | fuel + 1, b0 :: rest =>
    if b0 < 128 then b0 :: utf8Go fuel rest
    else if 194 ≤ b0 ∧ b0 ≤ 223 then
      match rest with
      | [] => [65533]
      | b1 :: rest1 =>
        if 128 ≤ b1 ∧ b1 ≤ 191 then
          ((b0 - 192) * 64 + (b1 - 128)) :: utf8Go fuel rest1
        else 65533 :: utf8Go fuel rest
    else if 224 ≤ b0 ∧ b0 ≤ 239 then
      match rest with
      | [] => [65533]
      | b1 :: rest1 =>
        if cont1ok b0 b1 then
          match rest1 with
          | [] => [65533]
          | b2 :: rest2 =>
            if 128 ≤ b2 ∧ b2 ≤ 191 then
              ((b0 - 224) * 4096 + (b1 - 128) * 64 + (b2 - 128)) :: utf8Go fuel rest2
            else 65533 :: utf8Go fuel rest1
        else 65533 :: utf8Go fuel rest
    else if 240 ≤ b0 ∧ b0 ≤ 244 then
      match rest with
      | [] => [65533]
      | b1 :: rest1 =>
        if cont1ok4 b0 b1 then
          match rest1 with
          | [] => [65533]
          | b2 :: rest2 =>
            if 128 ≤ b2 ∧ b2 ≤ 191 then
              match rest2 with
              | [] => [65533]
              | b3 :: rest3 =>
                if 128 ≤ b3 ∧ b3 ≤ 191 then
                  ((b0 - 240) * 262144 + (b1 - 128) * 4096 + (b2 - 128) * 64 + (b3 - 128)) ::
                    utf8Go fuel rest3
                else 65533 :: utf8Go fuel rest2
            else 65533 :: utf8Go fuel rest1
        else 65533 :: utf8Go fuel rest
    else 65533 :: utf8Go fuel rest

/-- UTF-8 decode with errors replaced: bytes to code points. -/
def utf8DecodeReplace (b : List Nat) : List Nat := utf8Go b.length b

/-- The full receive-side payload pipeline of term-multi-smoke.py
line 65: base64-decode the wire text, then UTF-8-decode the bytes with
replacement, yielding the code points appended to the session's
accumulated output. -/
def decodePayload (s : List Nat) : List Nat :=
  utf8DecodeReplace (b64decode s)

/-! ### Data model

Msg embeds the parsed JSON messages (dict with a type discriminator);
TesterState embeds the mutable fields of TerminalTester that the
demultiplexing engine touches: term_ids (the open-terminal list, whose
head is the default terminal) and outputs (the dict from terminal id to
accumulated output text). TFrame pairs an incoming message with its
arrival time on the socket.
-/

/-- A parsed wire message: the type tag, the optional term_id field,
the base64 payload text for input and output messages, and the
session_id field of hello and selected_workspace messages. -/
structure Msg where
  type : String
  term_id : Option String
  data_b64 : List Nat
  session_id : Option String
deriving DecidableEq

/-- The demultiplexing state of TerminalTester: the open-terminal list
(head is the default) and the accumulated-output dict, kept as an
insertion-ordered association list exactly like a Python dict. -/
structure TesterState where
  term_ids : List String
  outputs : List (String × List Nat)
deriving DecidableEq

/-- An incoming frame tagged with its arrival time on the socket. -/
structure TFrame where
  arrival : Int
  msg : Msg
deriving DecidableEq

/-- Result of one recv_until call: the updated state, the returned
message (none on timeout), the clock when the call returned, and the
frames still unread on the socket. -/
structure PullResult where
  st : TesterState
  msg : Option Msg
  time : Int
  rest : List TFrame
deriving DecidableEq

/-- Association-list lookup, the embedding of Python dict reads. -/
def lookupA : List (String × List Nat) → String → Option (List Nat)
  | [], _ => none
  | (k, v) :: rest, key => if k = key then some v else lookupA rest key

/-- Association-list update in place (a Python dict write keeps the
key's insertion position; a new key is appended at the end). -/
def assocSet : List (String × List Nat) → String → List Nat → List (String × List Nat)
  | [], k, v => [(k, v)]
  | (k0, v0) :: rest, k, v =>
      if k0 = k then (k, v) :: rest else (k0, v0) :: assocSet rest k v

/-- Resolution of the buffer a frame belongs to, embedding
term-multi-smoke.py line 63: parsed.get with key term_id, or-else the
first open terminal. Python's or treats the empty string like an absent
field, so an empty term_id also falls back to the default terminal. -/
def resolveTid (st : TesterState) (tid : Option String) : String :=
  match tid with
  | some t => if t = "" then st.term_ids.headD "" else t
  | none => st.term_ids.headD ""

/-- The accumulation step of recv_until (term-multi-smoke.py lines
61-66): on an output message, decode the payload and append it to the
buffer of the resolved terminal id, but only when that id already has a
buffer in outputs; otherwise the state is unchanged and the payload is
dropped. Non-output messages leave the state unchanged. -/
def accumulate (st : TesterState) (m : Msg) : TesterState :=
  if m.type = "output" then
    match lookupA st.outputs (resolveTid st m.term_id) with
    | some buf =>
        { st with outputs := assocSet st.outputs (resolveTid st m.term_id)
                               (buf ++ decodePayload m.data_b64) }
    | none => st
  else st

/-- The return condition of recv_until (lines 68-70): the message type
must equal the requested one, and when a term_id filter is given the
message's term_id field must equal it exactly. -/
def predMatch (m : Msg) (mt : String) (tf : Option String) : Bool :=
  if m.type = mt then
    match tf with
    | none => true
    | some t => decide (m.term_id = some t)
  else false

/-- The receive loop of recv_until (lines 52-73): the absolute deadline
is fixed by the caller; while the clock is before the deadline, the
next frame is awaited with the remaining time as its budget.  A frame
arriving before the deadline is accumulated and then checked against
the predicate; the timeout branch (no frame before the deadline)
breaks out of the loop and returns none at the deadline. -/
def recvUntilGo (mt : String) (tf : Option String) (deadline : Int) :
    TesterState → Int → List TFrame → PullResult
  | st, now, [] =>
      if now < deadline then ⟨st, none, deadline, []⟩ else ⟨st, none, now, []⟩
  | st, now, f :: rest =>
      if now < deadline then
        if f.arrival < deadline then
          if predMatch f.msg mt tf then ⟨accumulate st f.msg, some f.msg, f.arrival, rest⟩
          else recvUntilGo mt tf deadline (accumulate st f.msg) f.arrival rest
        else ⟨st, none, deadline, f :: rest⟩
      else ⟨st, none, now, f :: rest⟩

/-- recv_until (term-multi-smoke.py lines 50-73): computes the absolute
deadline now plus timeout once at entry and runs the receive loop. -/
def recv_until (st : TesterState) (mt : String) (tf : Option String)
    (now timeout : Int) (frames : List TFrame) : PullResult :=
  recvUntilGo mt tf (now + timeout) st now frames

/-- Whether the first list occurs at the start of the second. -/
def prefixAt : List Nat → List Nat → Bool
  | [], _ => true
  | _ :: _, [] => false
  | a :: as, b :: bs => a == b && prefixAt as bs

/-- Substring containment on code-point lists, the embedding of the
Python in operator on str. -/
def containsSub (needle : List Nat) : List Nat → Bool
  | [] => prefixAt needle []
  | b :: rest => prefixAt needle (b :: rest) || containsSub needle rest

/-- The accumulated output of a terminal, defaulting to empty: the
embedding of outputs.get with an empty-string default (line 128). -/
def bufOf (st : TesterState) (tid : String) : List Nat :=
  (lookupA st.outputs tid).getD []

/-- The loop body of wait_for_output (lines 124-131), indexed by fuel
bounding the number of loop iterations (the Python loop is bounded by
the real clock, which the model does not tick on its own): while the
clock is before the deadline, first test whether the expected text is
already contained in the terminal's buffer and return true if so;
otherwise pull with recv_until for half a second and loop. -/
def waitGo (tid : String) (expected : List Nat) (deadline : Int) :
    Nat → TesterState → Int → List TFrame → Bool × TesterState × Int × List TFrame
  | 0, st, now, frames => (false, st, now, frames)
  | fuel + 1, st, now, frames =>
      if now < deadline then
        if containsSub expected (bufOf st tid) then (true, st, now, frames)
        else
          let r := recv_until st "output" (some tid) now 500 frames
          waitGo tid expected deadline fuel r.st r.time r.rest
      else (false, st, now, frames)

/-- wait_for_output (lines 124-131): fixes the deadline and runs the
check-then-pull loop. -/
def wait_for_output (st : TesterState) (tid : String) (expected : List Nat)
    (now timeout : Int) (fuel : Nat) (frames : List TFrame) :
    Bool × TesterState × Int × List TFrame :=
  waitGo tid expected (now + timeout) fuel st now frames

/-- Outcome of close_terminal: a normal return carrying the updated
state and the boolean result, or the ValueError raised by
list.remove when the acknowledged id is not in term_ids. -/
inductive CloseResult where
  | ok (st : TesterState) (success : Bool)
  | valueError (st : TesterState)
deriving DecidableEq

/-- close_terminal (term-multi-smoke.py lines 133-141): send term_close,
wait for a term_closed message with the default 10 s budget, and if one
arrived carrying the requested term_id, remove that id from term_ids
(Python list.remove raises ValueError when the id is absent) and
return true; otherwise return false. The outputs entry is never
removed. -/
def close_terminal (st : TesterState) (term_id : String) (now : Int)
    (frames : List TFrame) : CloseResult :=
  let r := recv_until st "term_closed" none now 10000 frames
  match r.msg with
  | some m =>
      if m.term_id = some term_id then
        if term_id ∈ r.st.term_ids then
          CloseResult.ok { r.st with term_ids := r.st.term_ids.erase term_id } true
        else CloseResult.valueError r.st
      else CloseResult.ok r.st false
  | none => CloseResult.ok r.st false

/-- The selected_workspace handler in main (term-multi-smoke.py lines
172-177): when an acknowledgment arrived, term_ids is replaced by the
one-element list holding the new session id and outputs by a fresh
dict mapping that id to the empty text; when none arrived, the state
is left unchanged. -/
def applySelectWorkspace (st : TesterState) (resp : Option Msg) : TesterState :=
  match resp with
  | none => st
  | some m => { term_ids := [m.session_id.getD ""],
                outputs := [(m.session_id.getD "", [])] }

/-- The isolation verification of main (lines 210-222): four substring
containment facts over the two terminals' settled buffers and their
verdict conjunction; the state passes through untouched. -/
def isolationCheck (st : TesterState) (t1 t2 : String) (mA mB : List Nat) :
    TesterState × (Bool × Bool × Bool × Bool) × Bool :=
  let a1 := containsSub mA (bufOf st t1)
  let b1 := containsSub mB (bufOf st t1)
  let a2 := containsSub mA (bufOf st t2)
  let b2 := containsSub mB (bufOf st t2)
  (st, (a1, b1, a2, b2), a1 && !b1 && b2 && !a2)

/-! ### Helper lemmas -/

theorem charToSextet_sextetToChar : ∀ s < 64, charToSextet (sextetToChar s) = some s := by
  decide

theorem charToSextet_pad : charToSextet 61 = none := by
  decide

/-- The base64 codec is exact on bytes: decoding an encoding returns the
original byte sequence, for every sequence of bytes (values below 256),
including the empty one. -/
theorem b64decode_b64encode : (b : List Nat) → (∀ x ∈ b, x < 256) →
    b64decode (b64encode b) = b
  | [], _ => rfl
  | [b0], h => by
      have h0 : b0 < 256 := h b0 (by simp)
      have hs0 : b0 / 4 < 64 := by omega
      have hs1 : b0 % 4 * 16 < 64 := by omega
      have hc0 := charToSextet_sextetToChar _ hs0
      have hc1 := charToSextet_sextetToChar _ hs1
      simp only [b64encode, b64decode, List.filterMap_cons, hc0, hc1,
        charToSextet_pad, List.filterMap_nil, sextetsToBytes]
      simp only [List.cons.injEq, and_true]
      omega
  | [b0, b1], h => by
      have h0 : b0 < 256 := h b0 (by simp)
      have h1 : b1 < 256 := h b1 (by simp)
      have hs0 : b0 / 4 < 64 := by omega
      have hs1 : b0 % 4 * 16 + b1 / 16 < 64 := by omega
      have hs2 : b1 % 16 * 4 < 64 := by omega
      have hc0 := charToSextet_sextetToChar _ hs0
      have hc1 := charToSextet_sextetToChar _ hs1
      have hc2 := charToSextet_sextetToChar _ hs2
      simp only [b64encode, b64decode, List.filterMap_cons, hc0, hc1, hc2,
        charToSextet_pad, List.filterMap_nil, sextetsToBytes]
      simp only [List.cons.injEq, and_true]
      constructor
      · omega
      · omega
  | b0 :: b1 :: b2 :: rest, h => by
      have h0 : b0 < 256 := h b0 (by simp)
      have h1 : b1 < 256 := h b1 (by simp)
      have h2 : b2 < 256 := h b2 (by simp)
      have hrest : ∀ x ∈ rest, x < 256 := fun x hx => h x (by simp [hx])
      have ih := b64decode_b64encode rest hrest
      have hs0 : b0 / 4 < 64 := by omega
      have hs1 : b0 % 4 * 16 + b1 / 16 < 64 := by omega
      have hs2 : b1 % 16 * 4 + b2 / 64 < 64 := by omega
      have hs3 : b2 % 64 < 64 := by omega
      have hc0 := charToSextet_sextetToChar _ hs0
      have hc1 := charToSextet_sextetToChar _ hs1
      have hc2 := charToSextet_sextetToChar _ hs2
      have hc3 := charToSextet_sextetToChar _ hs3
      simp only [b64decode] at ih
      simp only [b64encode, b64decode, List.filterMap_cons, hc0, hc1, hc2, hc3,
        sextetsToBytes, ih]
      simp only [List.cons.injEq, and_true]
      refine ⟨by omega, by omega, by omega⟩

theorem utf8Go_ascii : ∀ (fuel : Nat) (b : List Nat), b.length ≤ fuel →
    (∀ x ∈ b, x < 128) → utf8Go fuel b = b
  | 0, b, hf, _ => by
      have : b = [] := List.length_eq_zero.mp (Nat.le_zero.mp hf)
      simp [this, utf8Go]
  | fuel + 1, [], _, _ => by simp [utf8Go]
  | fuel + 1, b0 :: rest, hf, h => by
      have h0 : b0 < 128 := h b0 (by simp)
      have hrest : ∀ x ∈ rest, x < 128 := fun x hx => h x (by simp [hx])
      have hlen : rest.length ≤ fuel := by
        simp only [List.length_cons] at hf; omega
      have ih := utf8Go_ascii fuel rest hlen hrest
      simp [utf8Go, h0, ih]

/-- ASCII byte sequences decode to themselves. -/
theorem utf8DecodeReplace_ascii (b : List Nat) (h : ∀ x ∈ b, x < 128) :
    utf8DecodeReplace b = b :=
  utf8Go_ascii b.length b le_rfl h

theorem lookupA_assocSet_self : ∀ (l : List (String × List Nat)) (k : String) (v : List Nat),
    lookupA (assocSet l k v) k = some v
  | [], k, v => by simp [assocSet, lookupA]
  | (k0, v0) :: rest, k, v => by
      by_cases h : k0 = k
      · simp [assocSet, h, lookupA]
      · simp only [assocSet, if_neg h, lookupA]
        exact lookupA_assocSet_self rest k v

theorem lookupA_assocSet_ne : ∀ (l : List (String × List Nat)) (k k2 : String) (v : List Nat),
    k2 ≠ k → lookupA (assocSet l k v) k2 = lookupA l k2
  | [], k, k2, v, h => by
      simp only [assocSet, lookupA]
      rw [if_neg (Ne.symm h)]
  | (k0, v0) :: rest, k, k2, v, h => by
      by_cases h0 : k0 = k
      · subst h0
        simp only [assocSet, if_pos rfl, lookupA]
        rw [if_neg (Ne.symm h), if_neg (Ne.symm h)]
      · simp only [assocSet, if_neg h0, lookupA]
        by_cases h2 : k0 = k2
        · rw [if_pos h2, if_pos h2]
        · rw [if_neg h2, if_neg h2]
          exact lookupA_assocSet_ne rest k k2 v h

/-- Accumulating never touches the open-terminal list. -/
theorem accumulate_term_ids (st : TesterState) (m : Msg) :
    (accumulate st m).term_ids = st.term_ids := by
  unfold accumulate
  by_cases h : m.type = "output"
  · rw [if_pos h]
    cases hl : lookupA st.outputs (resolveTid st m.term_id) <;> rfl
  · rw [if_neg h]

/-- On an output message whose resolved terminal id has a buffer, the
decoded payload is appended to exactly that buffer and every other
buffer is unchanged. -/
theorem accumulate_registered (st : TesterState) (m : Msg) (buf : List Nat)
    (hout : m.type = "output")
    (hreg : lookupA st.outputs (resolveTid st m.term_id) = some buf) :
    lookupA (accumulate st m).outputs (resolveTid st m.term_id)
      = some (buf ++ decodePayload m.data_b64)
    ∧ ∀ k, k ≠ resolveTid st m.term_id →
        lookupA (accumulate st m).outputs k = lookupA st.outputs k := by
  unfold accumulate
  rw [if_pos hout, hreg]
  exact ⟨lookupA_assocSet_self _ _ _, fun k hk => lookupA_assocSet_ne _ _ _ _ hk⟩

/-- On an output message whose resolved terminal id has no buffer, the
state is unchanged: the payload is dropped. -/
theorem accumulate_unregistered (st : TesterState) (m : Msg)
    (hout : m.type = "output")
    (hreg : lookupA st.outputs (resolveTid st m.term_id) = none) :
    accumulate st m = st := by
  unfold accumulate
  rw [if_pos hout, hreg]

/-- The receive loop never touches the open-terminal list. -/
theorem recvUntilGo_term_ids (mt : String) (tf : Option String) (deadline : Int) :
    ∀ (frames : List TFrame) (st : TesterState) (now : Int),
      (recvUntilGo mt tf deadline st now frames).st.term_ids = st.term_ids
  | [], st, now => by
      unfold recvUntilGo
      by_cases h : now < deadline
      · rw [if_pos h]
      · rw [if_neg h]
  | f :: rest, st, now => by
      unfold recvUntilGo
      by_cases h : now < deadline
      · rw [if_pos h]
        by_cases ha : f.arrival < deadline
        · rw [if_pos ha]
          by_cases hp : predMatch f.msg mt tf
          · simp only [if_pos hp]
            exact accumulate_term_ids st f.msg
          · simp only [hp, if_false, Bool.false_eq_true]
            rw [recvUntilGo_term_ids mt tf deadline rest (accumulate st f.msg) f.arrival]
            exact accumulate_term_ids st f.msg
        · rw [if_neg ha]
      · rw [if_neg h]

/-- A run of frames that all arrive before the deadline and all fail
the predicate is skipped entirely; a matching frame after them that
also arrives before the deadline is returned. -/
theorem recvUntilGo_skips (mt : String) (tf : Option String) (deadline : Int) :
    ∀ (fs : List TFrame) (g : TFrame) (st : TesterState) (now : Int),
      now < deadline →
      (∀ f ∈ fs, f.arrival < deadline ∧ predMatch f.msg mt tf = false) →
      g.arrival < deadline → predMatch g.msg mt tf = true →
      (recvUntilGo mt tf deadline st now (fs ++ [g])).msg = some g.msg
  | [], g, st, now, hnow, _, hg, hm => by
      simp only [List.nil_append]
      unfold recvUntilGo
      rw [if_pos hnow, if_pos hg, hm]
      rfl
  | f :: fs, g, st, now, hnow, hfs, hg, hm => by
      have hf := hfs f (by simp)
      simp only [List.cons_append]
      unfold recvUntilGo
      rw [if_pos hnow, if_pos hf.1, hf.2]
      simp only [Bool.false_eq_true, if_false]
      exact recvUntilGo_skips mt tf deadline fs g (accumulate st f.msg) f.arrival hf.1
        (fun x hx => hfs x (by simp [hx])) hg hm

/-! ### Claims -/

/-- Claim C1 is false as stated: wire payloads are base64 text, and the
base64 round trip is exact, but the receive path decodes the bytes to
text with errors replaced before appending, so for the one-byte
sequence 255 (not valid UTF-8) the data appended to the session's
accumulated output is the replacement character 65533, not the original
byte. -/
theorem c1_counterexample :
    lookupA (accumulate ⟨["d"], [("d", [])]⟩
        ⟨"output", some "d", b64encode [255], none⟩).outputs "d"
      = some [65533]
    ∧ ([65533] : List Nat) ≠ [255] := by
  constructor
  · decide
  · decide

/-- Claim C1 (amended): for every byte sequence b, decoding the encoded
wire payload at the base64 layer reproduces exactly b, including empty
sequences and bytes outside printable ASCII; what is appended to the
session's accumulated output, however, is the UTF-8 decoding of b with
invalid sequences replaced, which coincides with b whenever b is pure
ASCII but replaces ill-formed bytes (such as 255) with 65533. -/
theorem c1_payload_roundtrip_amended (b : List Nat) (st : TesterState) (d : String)
    (buf : List Nat) (hb : ∀ x ∈ b, x < 256) (hd : d ≠ "")
    (hreg : lookupA st.outputs d = some buf) :
    b64decode (b64encode b) = b
    ∧ lookupA (accumulate st ⟨"output", some d, b64encode b, none⟩).outputs d
        = some (buf ++ utf8DecodeReplace b)
    ∧ ((∀ x ∈ b, x < 128) → utf8DecodeReplace b = b) := by
  have hrt := b64decode_b64encode b hb
  have hres : resolveTid st (some d) = d := by simp [resolveTid, hd]
  have hreg2 : lookupA st.outputs
      (resolveTid st (Msg.mk "output" (some d) (b64encode b) none).term_id) = some buf := by
    rw [show (Msg.mk "output" (some d) (b64encode b) none).term_id = some d from rfl, hres]
    exact hreg
  have h := accumulate_registered st ⟨"output", some d, b64encode b, none⟩ buf rfl hreg2
  refine ⟨hrt, ?_, fun h2 => utf8DecodeReplace_ascii b h2⟩
  have h1 := h.1
  rw [show (Msg.mk "output" (some d) (b64encode b) none).term_id = some d from rfl, hres] at h1
  rw [show (Msg.mk "output" (some d) (b64encode b) none).data_b64 = b64encode b from rfl] at h1
  rw [h1]
  simp only [decodePayload, hrt]

theorem c1_payload_roundtrip_amended_witness :
    (∀ x ∈ ([72, 105] : List Nat), x < 256)
    ∧ (b64decode (b64encode [72, 105]) = [72, 105]
       ∧ lookupA (accumulate ⟨["d"], [("d", [])]⟩
             ⟨"output", some "d", b64encode [72, 105], none⟩).outputs "d"
           = some ([] ++ utf8DecodeReplace [72, 105])
       ∧ ((∀ x ∈ ([72, 105] : List Nat), x < 128) → utf8DecodeReplace [72, 105] = [72, 105])) :=
  ⟨by decide, c1_payload_roundtrip_amended [72, 105] ⟨["d"], [("d", [])]⟩ "d" []
      (by decide) (by decide) (by decide)⟩

/-- Claim C2 is false as stated: an output frame whose resolved terminal
id has no buffer in outputs is not demultiplexed into a freshly created
buffer; the membership guard on line 64 silently drops the payload and
leaves the registry without that id. -/
theorem c2_counterexample :
    lookupA (accumulate ⟨["d"], [("d", [])]⟩
        ⟨"output", some "X", b64encode [65], none⟩).outputs "X" = none
    ∧ decodePayload (b64encode [65]) = [65] := by
  constructor
  · decide
  · decide

/-- Claim C2 (amended): for every pulled output frame whose resolved
session id already has a buffer in the registry, the decoded payload is
unconditionally appended to exactly that buffer, leaving every other
buffer unchanged; when the resolved id has no buffer, the frame's
payload is dropped and the state is left entirely unchanged — no
buffer is created for implicitly discovered sessions. -/
theorem c2_demux_append_amended (st : TesterState) (m : Msg) (hout : m.type = "output") :
    (∀ buf, lookupA st.outputs (resolveTid st m.term_id) = some buf →
        lookupA (accumulate st m).outputs (resolveTid st m.term_id)
          = some (buf ++ decodePayload m.data_b64)
        ∧ ∀ k, k ≠ resolveTid st m.term_id →
            lookupA (accumulate st m).outputs k = lookupA st.outputs k)
    ∧ (lookupA st.outputs (resolveTid st m.term_id) = none → accumulate st m = st) :=
  ⟨fun buf hreg => accumulate_registered st m buf hout hreg,
   fun hnone => accumulate_unregistered st m hout hnone⟩

theorem c2_demux_append_amended_witness :
    (Msg.mk "output" (some "X") (b64encode [65]) none).type = "output"
    ∧ ((∀ buf, lookupA ([("d", [])] : List (String × List Nat))
          (resolveTid ⟨["d"], [("d", [])]⟩ (some "X")) = some buf →
        lookupA (accumulate ⟨["d"], [("d", [])]⟩
            ⟨"output", some "X", b64encode [65], none⟩).outputs
            (resolveTid ⟨["d"], [("d", [])]⟩ (some "X"))
          = some (buf ++ decodePayload (b64encode [65]))
        ∧ ∀ k, k ≠ resolveTid ⟨["d"], [("d", [])]⟩ (some "X") →
            lookupA (accumulate ⟨["d"], [("d", [])]⟩
                ⟨"output", some "X", b64encode [65], none⟩).outputs k
              = lookupA ([("d", [])] : List (String × List Nat)) k)
      ∧ (lookupA ([("d", [])] : List (String × List Nat))
            (resolveTid ⟨["d"], [("d", [])]⟩ (some "X")) = none →
          accumulate ⟨["d"], [("d", [])]⟩ ⟨"output", some "X", b64encode [65], none⟩
            = ⟨["d"], [("d", [])]⟩)) :=
  ⟨rfl, c2_demux_append_amended ⟨["d"], [("d", [])]⟩
      ⟨"output", some "X", b64encode [65], none⟩ rfl⟩

/-- Claim C3: recv_until fixes its absolute deadline once at call time
(now plus timeout) and hands every pull only the remaining time until
that deadline, so a matching frame arriving before the deadline is
returned no matter how many non-matching frames arrived first. -/
theorem c3_deadline_recomputation (st : TesterState) (mt : String) (tf : Option String)
    (now timeout : Int) (fs : List TFrame) (g : TFrame)
    (hpos : 0 < timeout)
    (hfs : ∀ f ∈ fs, f.arrival < now + timeout ∧ predMatch f.msg mt tf = false)
    (hg : g.arrival < now + timeout) (hm : predMatch g.msg mt tf = true) :
    (recv_until st mt tf now timeout (fs ++ [g])).msg = some g.msg := by
  unfold recv_until
  exact recvUntilGo_skips mt tf (now + timeout) fs g st now (by omega) hfs hg hm

theorem c3_deadline_recomputation_witness :
    (0 : Int) < 2000
    ∧ (recv_until ⟨["d"], [("d", [])]⟩ "pong" none 0 2000
        ([⟨500, ⟨"output", some "d", b64encode [65], none⟩⟩,
          ⟨1000, ⟨"output", some "d", b64encode [66], none⟩⟩,
          ⟨1900, ⟨"output", some "d", b64encode [67], none⟩⟩] ++
         [⟨1950, ⟨"pong", none, [], none⟩⟩])).msg
      = some ⟨"pong", none, [], none⟩ :=
  ⟨by decide, c3_deadline_recomputation ⟨["d"], [("d", [])]⟩ "pong" none 0 2000
      [⟨500, ⟨"output", some "d", b64encode [65], none⟩⟩,
       ⟨1000, ⟨"output", some "d", b64encode [66], none⟩⟩,
       ⟨1900, ⟨"output", some "d", b64encode [67], none⟩⟩]
      ⟨1950, ⟨"pong", none, [], none⟩⟩
      (by decide) (by decide) (by decide) (by decide)⟩

/-- Claim C4 is false as stated: an output frame carrying the empty
string as its session id is not appended to that session's buffer even
when that session is registered; Python's or-fallback on line 63 treats
the empty id like an absent one and attributes the bytes to the default
session instead, mutating a cross-session buffer. -/
theorem c4_counterexample :
    lookupA (accumulate ⟨["d"], [("d", []), ("", [])]⟩
        ⟨"output", some "", b64encode [65], none⟩).outputs ""
      = some []
    ∧ lookupA (accumulate ⟨["d"], [("d", []), ("", [])]⟩
        ⟨"output", some "", b64encode [65], none⟩).outputs "d"
      = some [65] := by
  constructor
  · decide
  · decide

/-- Claim C4 (amended): for every output frame carrying a non-empty
session id S whose buffer exists in the registry, the decoded bytes are
appended only to S's buffer and every other buffer is unchanged; for
every output frame lacking a session id (or carrying the empty string,
which the or-fallback treats as absent), the bytes are appended to the
current default session's buffer (the head of term_ids, when
registered) and no other buffer changes. -/
theorem c4_output_attribution_amended (st : TesterState) (m : Msg)
    (hout : m.type = "output") :
    (∀ S buf, m.term_id = some S → S ≠ "" → lookupA st.outputs S = some buf →
        lookupA (accumulate st m).outputs S = some (buf ++ decodePayload m.data_b64)
        ∧ ∀ k, k ≠ S → lookupA (accumulate st m).outputs k = lookupA st.outputs k)
    ∧ (∀ d tl buf, m.term_id = none → st.term_ids = d :: tl →
        lookupA st.outputs d = some buf →
        lookupA (accumulate st m).outputs d = some (buf ++ decodePayload m.data_b64)
        ∧ ∀ k, k ≠ d → lookupA (accumulate st m).outputs k = lookupA st.outputs k) := by
  constructor
  · intro S buf hS hne hreg
    have hres : resolveTid st m.term_id = S := by simp [resolveTid, hS, hne]
    have h := accumulate_registered st m buf hout (by rw [hres]; exact hreg)
    rw [hres] at h
    exact h
  · intro d tl buf hnone hhead hreg
    have hres : resolveTid st m.term_id = d := by simp [resolveTid, hnone, hhead]
    have h := accumulate_registered st m buf hout (by rw [hres]; exact hreg)
    rw [hres] at h
    exact h

theorem c4_output_attribution_amended_witness :
    (Msg.mk "output" (some "s1") (b64encode [65]) none).type = "output"
    ∧ ((∀ S buf, (Msg.mk "output" (some "s1") (b64encode [65]) none).term_id = some S →
          S ≠ "" → lookupA ([("d", []), ("s1", [])] : List (String × List Nat)) S = some buf →
          lookupA (accumulate ⟨["d"], [("d", []), ("s1", [])]⟩
              ⟨"output", some "s1", b64encode [65], none⟩).outputs S
            = some (buf ++ decodePayload (b64encode [65]))
          ∧ ∀ k, k ≠ S →
              lookupA (accumulate ⟨["d"], [("d", []), ("s1", [])]⟩
                  ⟨"output", some "s1", b64encode [65], none⟩).outputs k
                = lookupA ([("d", []), ("s1", [])] : List (String × List Nat)) k)
      ∧ (∀ d tl buf, (Msg.mk "output" (some "s1") (b64encode [65]) none).term_id = none →
          (["d"] : List String) = d :: tl →
          lookupA ([("d", []), ("s1", [])] : List (String × List Nat)) d = some buf →
          lookupA (accumulate ⟨["d"], [("d", []), ("s1", [])]⟩
              ⟨"output", some "s1", b64encode [65], none⟩).outputs d
            = some (buf ++ decodePayload (b64encode [65]))
          ∧ ∀ k, k ≠ d →
              lookupA (accumulate ⟨["d"], [("d", []), ("s1", [])]⟩
                  ⟨"output", some "s1", b64encode [65], none⟩).outputs k
                = lookupA ([("d", []), ("s1", [])] : List (String × List Nat)) k)) :=
  ⟨rfl, c4_output_attribution_amended ⟨["d"], [("d", []), ("s1", [])]⟩
      ⟨"output", some "s1", b64encode [65], none⟩ rfl⟩

/-- Claim C5: on receipt of a selected_workspace acknowledgment carrying
a new session id S1, the prior default id S0 is no longer in the
registry and S1 is, with a fresh empty buffer; the open-terminal list
becomes exactly the singleton S1. The old identity is dropped, not
mutated in place. -/
theorem c5_workspace_replacement (st : TesterState) (m : Msg) (s0 s1 : String)
    (hsid : m.session_id = some s1) (hne : s1 ≠ s0) :
    lookupA (applySelectWorkspace st (some m)).outputs s1 = some []
    ∧ lookupA (applySelectWorkspace st (some m)).outputs s0 = none
    ∧ (applySelectWorkspace st (some m)).term_ids = [s1]
    ∧ s0 ∉ (applySelectWorkspace st (some m)).term_ids := by
  refine ⟨?_, ?_, ?_, ?_⟩
  · simp [applySelectWorkspace, hsid, lookupA]
  · simp only [applySelectWorkspace, hsid, Option.getD_some, lookupA]
    rw [if_neg hne]
  · simp [applySelectWorkspace, hsid]
  · simp [applySelectWorkspace, hsid, Ne.symm hne]

theorem c5_workspace_replacement_witness :
    (Msg.mk "selected_workspace" none [] (some "s1")).session_id = some "s1"
    ∧ (lookupA (applySelectWorkspace ⟨["s0"], [("s0", [65])]⟩
          (some ⟨"selected_workspace", none, [], some "s1"⟩)).outputs "s1" = some []
       ∧ lookupA (applySelectWorkspace ⟨["s0"], [("s0", [65])]⟩
           (some ⟨"selected_workspace", none, [], some "s1"⟩)).outputs "s0" = none
       ∧ (applySelectWorkspace ⟨["s0"], [("s0", [65])]⟩
           (some ⟨"selected_workspace", none, [], some "s1"⟩)).term_ids = ["s1"]
       ∧ "s0" ∉ (applySelectWorkspace ⟨["s0"], [("s0", [65])]⟩
           (some ⟨"selected_workspace", none, [], some "s1"⟩)).term_ids) :=
  ⟨rfl, c5_workspace_replacement ⟨["s0"], [("s0", [65])]⟩
      ⟨"selected_workspace", none, [], some "s1"⟩ "s0" "s1" rfl (by decide)⟩

/-- Claim C6: during a wait, a pulled output frame that fails the
pending predicate is still demultiplexed first — the loop continues
from the accumulated state, and the frame's decoded payload is already
appended to its (registered) session's buffer before the predicate
discards the frame. -/
theorem c6_accumulate_before_predicate (st : TesterState) (mt : String) (tf : Option String)
    (deadline : Int) (f : TFrame) (rest : List TFrame) (now : Int) (buf : List Nat)
    (hnow : now < deadline) (harr : f.arrival < deadline)
    (hout : f.msg.type = "output")
    (hreg : lookupA st.outputs (resolveTid st f.msg.term_id) = some buf)
    (hnomatch : predMatch f.msg mt tf = false) :
    recvUntilGo mt tf deadline st now (f :: rest)
      = recvUntilGo mt tf deadline (accumulate st f.msg) f.arrival rest
    ∧ lookupA (accumulate st f.msg).outputs (resolveTid st f.msg.term_id)
      = some (buf ++ decodePayload f.msg.data_b64) := by
  constructor
  · conv_lhs => rw [recvUntilGo]
    rw [if_pos hnow, if_pos harr, hnomatch]
    simp only [Bool.false_eq_true, if_false]
  · exact (accumulate_registered st f.msg buf hout hreg).1

theorem c6_accumulate_before_predicate_witness :
    predMatch ⟨"output", some "d", b64encode [65], none⟩ "pong" none = false
    ∧ (recvUntilGo "pong" none 2000 ⟨["d"], [("d", [])]⟩ 0
          [⟨100, ⟨"output", some "d", b64encode [65], none⟩⟩]
        = recvUntilGo "pong" none 2000
            (accumulate ⟨["d"], [("d", [])]⟩ ⟨"output", some "d", b64encode [65], none⟩)
            100 []
       ∧ lookupA (accumulate ⟨["d"], [("d", [])]⟩
             ⟨"output", some "d", b64encode [65], none⟩).outputs
             (resolveTid ⟨["d"], [("d", [])]⟩ (some "d"))
         = some ([] ++ decodePayload (b64encode [65]))) :=
  ⟨by decide, c6_accumulate_before_predicate ⟨["d"], [("d", [])]⟩ "pong" none 2000
      ⟨100, ⟨"output", some "d", b64encode [65], none⟩⟩ [] 0 []
      (by decide) (by decide) rfl (by decide) (by decide)⟩

/-- Claim C7 is false as stated: when a term_closed acknowledgment
carrying the already-closed id S1 is pulled, close_terminal does not
return a failure result — list.remove on the open-terminal list raises
ValueError, which aborts the scenario instead of being reported as a
protocol violation. -/
theorem c7_counterexample :
    close_terminal ⟨["a"], [("a", [])]⟩ "b" 0
        [⟨5, ⟨"term_closed", some "b", [], none⟩⟩]
      = CloseResult.valueError ⟨["a"], [("a", [])]⟩ := by
  decide

/-- Claim C7 (amended): closing a session whose id is no longer open
never returns a successful result — whenever close_terminal returns
normally it reports failure (false) and the set of open sessions is
unchanged; the only other possibility, reached when a term_closed
acknowledgment carrying the closed id arrives, is the ValueError raised
by the removal, not a reported protocol violation. -/
theorem c7_close_amended (st : TesterState) (tid : String) (now : Int)
    (frames : List TFrame) (hnot : tid ∉ st.term_ids) :
    ∀ st2 b, close_terminal st tid now frames = CloseResult.ok st2 b →
      b = false ∧ st2.term_ids = st.term_ids := by
  intro st2 b h
  have hpres : (recv_until st "term_closed" none now 10000 frames).st.term_ids
      = st.term_ids := by
    unfold recv_until
    exact recvUntilGo_term_ids "term_closed" none (now + 10000) frames st now
  simp only [close_terminal] at h
  cases hm : (recv_until st "term_closed" none now 10000 frames).msg with
  | none =>
      rw [hm] at h
      simp only at h
      injection h with h1 h2
      exact ⟨h2.symm, h1 ▸ hpres⟩
  | some m =>
      rw [hm] at h
      simp only at h
      by_cases ht : m.term_id = some tid
      · rw [if_pos ht] at h
        have hni : tid ∉ (recv_until st "term_closed" none now 10000 frames).st.term_ids := by
          rw [hpres]; exact hnot
        rw [if_neg hni] at h
        cases h
      · rw [if_neg ht] at h
        injection h with h1 h2
        exact ⟨h2.symm, h1 ▸ hpres⟩

theorem c7_close_amended_witness :
    ("b" ∉ (⟨["a"], [("a", [])]⟩ : TesterState).term_ids)
    ∧ (false = false
       ∧ (⟨["a"], [("a", [])]⟩ : TesterState).term_ids
         = (⟨["a"], [("a", [])]⟩ : TesterState).term_ids) :=
  ⟨by decide, c7_close_amended ⟨["a"], [("a", [])]⟩ "b" 0 [] (by decide)
      ⟨["a"], [("a", [])]⟩ false (by decide)⟩

/-- Claim C8: a recv_until call whose time budget is zero or negative
returns none immediately: the deadline guard fails before any pull, so
the state is untouched, the clock does not advance, and no frame is
consumed from the socket. -/
theorem c8_nonpositive_budget_timeout (st : TesterState) (mt : String) (tf : Option String)
    (now timeout : Int) (frames : List TFrame) (h : timeout ≤ 0) :
    recv_until st mt tf now timeout frames = ⟨st, none, now, frames⟩ := by
  have hn : ¬ now < now + timeout := by omega
  unfold recv_until
  cases frames with
  | nil => unfold recvUntilGo; rw [if_neg hn]
  | cons f rest => unfold recvUntilGo; rw [if_neg hn]

theorem c8_nonpositive_budget_timeout_witness :
    (0 : Int) ≤ 0
    ∧ recv_until ⟨["d"], [("d", [])]⟩ "pong" none 7 0
        [⟨1, ⟨"pong", none, [], none⟩⟩]
      = ⟨⟨["d"], [("d", [])]⟩, none, 7, [⟨1, ⟨"pong", none, [], none⟩⟩]⟩ :=
  ⟨by decide, c8_nonpositive_budget_timeout ⟨["d"], [("d", [])]⟩ "pong" none 7 0
      [⟨1, ⟨"pong", none, [], none⟩⟩] (by decide)⟩

/-- Claim C9: the isolation verdict and its four containment facts are a
pure function of the two settled buffers — two states agreeing on those
buffers get identical facts and verdict — and the check returns the
state unchanged, with no further frame consumption. -/
theorem c9_isolation_pure (st st2 : TesterState) (t1 t2 : String) (mA mB : List Nat)
    (h1 : bufOf st t1 = bufOf st2 t1) (h2 : bufOf st t2 = bufOf st2 t2) :
    (isolationCheck st t1 t2 mA mB).1 = st
    ∧ (isolationCheck st t1 t2 mA mB).2 = (isolationCheck st2 t1 t2 mA mB).2 := by
  constructor
  · rfl
  · simp only [isolationCheck, h1, h2]

theorem c9_isolation_pure_witness :
    bufOf ⟨["a", "b"], [("a", [77]), ("b", [78])]⟩ "a"
      = bufOf ⟨["a", "b"], [("a", [77]), ("b", [78])]⟩ "a"
    ∧ ((isolationCheck ⟨["a", "b"], [("a", [77]), ("b", [78])]⟩ "a" "b" [77] [78]).1
        = ⟨["a", "b"], [("a", [77]), ("b", [78])]⟩
       ∧ (isolationCheck ⟨["a", "b"], [("a", [77]), ("b", [78])]⟩ "a" "b" [77] [78]).2
        = (isolationCheck ⟨["a", "b"], [("a", [77]), ("b", [78])]⟩ "a" "b" [77] [78]).2) :=
  ⟨rfl, c9_isolation_pure ⟨["a", "b"], [("a", [77]), ("b", [78])]⟩
      ⟨["a", "b"], [("a", [77]), ("b", [78])]⟩ "a" "b" [77] [78] rfl rfl⟩

/-- Claim C10: when the expected text is already contained in the
terminal's accumulated buffer at the moment wait_for_output is called
and the budget is positive, the call returns true at once — the state,
the clock and the unread frame stream are exactly as they were, so no
network pull happens. -/
theorem c10_buffered_marker_short_circuit (st : TesterState) (tid : String)
    (expected : List Nat) (now timeout : Int) (fuel : Nat) (frames : List TFrame)
    (ht : 0 < timeout) (hbuf : containsSub expected (bufOf st tid) = true) :
    wait_for_output st tid expected now timeout (fuel + 1) frames
      = (true, st, now, frames) := by
  unfold wait_for_output waitGo
  rw [if_pos (by omega : now < now + timeout), hbuf]
  simp only [if_true]

theorem c10_buffered_marker_short_circuit_witness :
    (0 : Int) < 5000
    ∧ wait_for_output ⟨["d"], [("d", [77, 65])]⟩ "d" [65] 0 5000 (0 + 1)
        [⟨100, ⟨"output", some "d", b64encode [66], none⟩⟩]
      = (true, ⟨["d"], [("d", [77, 65])]⟩, 0,
         [⟨100, ⟨"output", some "d", b64encode [66], none⟩⟩]) :=
  ⟨by decide, c10_buffered_marker_short_circuit ⟨["d"], [("d", [77, 65])]⟩ "d" [65] 0 5000 0
      [⟨100, ⟨"output", some "d", b64encode [66], none⟩⟩] (by decide) (by decide)⟩
